import Mathlib

/-!
Shallow embedding of the mrmd process supervisor (`src/mrmd/processes.py`):
the `ProcessManager` registry, the three start operations
(`start_node_process`, `start_python_process`, `start_npx_process`), the
`_read_output` drain loop, `is_running`, `get_output`, `stop`, `stop_all`
and `get_status`.

OS nondeterminism (executable resolution, spawn outcomes, signal races,
graceful-wait timeouts) is passed in explicitly as environment records.
Python exceptions are embedded with `Except PyExc`: a primitive that can
raise yields an `Except` value and the source's `try`/`except` blocks
become matches on it, so "never raises to the caller" is the statement
that an operation always returns `.ok`.

Python dicts are insertion-ordered association lists: assignment to a
fresh key appends at the end, assignment to a present key overwrites in
place, `del` removes the key's entry, and iteration follows list order.
-/

namespace Mrmd

/-- The Python exception kinds that the supervisor's code paths can see.
`oSError` stands for an `OSError` that is neither a `FileNotFoundError`
nor a `ProcessLookupError` — e.g. a `PermissionError`. -/
inductive PyExc where
  | runtimeError
  | oSError
  | fileNotFoundError
  | processLookupError
  | timeoutError
  | cancelledError
deriving DecidableEq

/-- An `asyncio.subprocess.Process` handle: its pid and its `returncode`,
which is `none` while the child is running. -/
structure Proc where
  pid : Nat
  returncode : Option Int
deriving DecidableEq

/-- The `ProcessManager` instance state: `_processes` (the registry),
`_output_buffers`, `_output_tasks` (modelled by the list of names that
currently have a drain task registered) and `_max_output_lines`. -/
structure ManagerState where
  processes : List (String × Proc)
  outputBuffers : List (String × List String)
  outputTasks : List String
  maxOutputLines : Nat
deriving DecidableEq

/-- `ProcessManager.__init__`: empty dicts, `_max_output_lines = 1000`. -/
def initState : ManagerState := ⟨[], [], [], 1000⟩

/-- Python dict assignment `d[k] = v`: overwrite in place when the key is
present (keeping its position), otherwise append at the end. -/
def assocSet (m : List (String × α)) (k : String) (v : α) : List (String × α) :=
  if (m.lookup k).isSome then m.map (fun p => if p.1 = k then (k, v) else p)
  else m ++ [(k, v)]

/-- Python dict deletion `del d[k]`. -/
def assocDel (m : List (String × α)) (k : String) : List (String × α) :=
  m.filter (fun p => p.1 != k)

/-- `self._output_tasks[name] = task` on the name-set model of the task
dict: record the name if it is not already present. -/
def taskSet (ts : List String) (k : String) : List String :=
  if ts.contains k then ts else ts ++ [k]

/-- Outcomes of the OS-dependent steps of `get_node_executable()`:
whether `from nodejs import node` succeeds (its `ImportError` is caught
and falls through), and the outcome of the
`subprocess.run(["node", "--version"])` probe — the probe's returncode,
or the exception it raised. -/
structure NodeEnv where
  nodejsBin : Bool
  probe : Except PyExc Int

/-- `get_node_executable`: return "node" when nodejs-bin imports;
otherwise probe the system node and return "node" on returncode 0. The
probe's `except` clause catches only `subprocess.TimeoutExpired` and
`FileNotFoundError` (falling through to `raise RuntimeError`); any other
exception from `subprocess.run` — e.g. a `PermissionError` — escapes
this function undeclared. -/
def get_node_executable (env : NodeEnv) : Except PyExc String :=
  if env.nodejsBin then .ok "node"
  else
    match env.probe with
    | .ok rc => if rc = 0 then .ok "node" else .error .runtimeError
    | .error .timeoutError => .error .runtimeError
    | .error .fileNotFoundError => .error .runtimeError
    | .error e => .error e

/-- Outcomes of the OS-dependent steps of a start operation. `node` is
the environment of the `get_node_executable()` call (used only by
`start_node_process`). `spawn` is the outcome of
`asyncio.create_subprocess_exec`: the new pid on success, or the
exception it raised. The command line, args, cwd, env overlay, venv and
output callback only shape the spawned child, which the model folds into
this record. -/
structure StartEnv where
  node : NodeEnv
  spawn : Except PyExc Nat

/-- `ProcessManager.start_node_process`: fail fast on a name collision,
resolve node — catching only `RuntimeError` (returning false), so any
other exception escaping `get_node_executable` propagates to the caller
— then spawn (returning false on any exception, via the catch-all
`except Exception`), and register the process, a fresh empty buffer and
the drain task. -/
def start_node_process (s : ManagerState) (name : String) (env : StartEnv) :
    Except PyExc (Bool × ManagerState) :=
  if (s.processes.lookup name).isSome then
    .ok (false, s)
  else
    match get_node_executable env.node with
    | .error .runtimeError => .ok (false, s)
    | .error e => .error e
    | .ok _node =>
      match env.spawn with
      | .error _e => .ok (false, s)
      | .ok pid =>
        .ok (true,
          { s with
            processes := assocSet s.processes name ⟨pid, none⟩,
            outputBuffers := assocSet s.outputBuffers name [],
            outputTasks := taskSet s.outputTasks name })

/-- `ProcessManager.start_python_process`: same registry logic without the
node-resolution step (interpreter selection from `venv`/`sys.executable`
cannot raise). -/
def start_python_process (s : ManagerState) (name : String) (env : StartEnv) :
    Except PyExc (Bool × ManagerState) :=
  if (s.processes.lookup name).isSome then
    .ok (false, s)
  else
    match env.spawn with
    | .error _e => .ok (false, s)
    | .ok pid =>
      .ok (true,
        { s with
          processes := assocSet s.processes name ⟨pid, none⟩,
          outputBuffers := assocSet s.outputBuffers name [],
          outputTasks := taskSet s.outputTasks name })

/-- `ProcessManager.start_npx_process`: same registry logic; the npx
lookup falls back to the literal "npx" on ImportError, so it cannot
fail before the spawn. -/
def start_npx_process (s : ManagerState) (name : String) (env : StartEnv) :
    Except PyExc (Bool × ManagerState) :=
  if (s.processes.lookup name).isSome then
    .ok (false, s)
  else
    match env.spawn with
    | .error _e => .ok (false, s)
    | .ok pid =>
      .ok (true,
        { s with
          processes := assocSet s.processes name ⟨pid, none⟩,
          outputBuffers := assocSet s.outputBuffers name [],
          outputTasks := taskSet s.outputTasks name })

/-- Which of the three start operations is being invoked. -/
inductive StartKind where
  | node
  | python
  | npx
deriving DecidableEq

/-- Dispatch over the three start operations. -/
def startOp : StartKind → ManagerState → String → StartEnv →
    Except PyExc (Bool × ManagerState)
  | .node => start_node_process
  | .python => start_python_process
  | .npx => start_npx_process

/-- One `deque(maxlen=maxLen)` append: the oldest entries are evicted once
the capacity is reached. -/
def appendBounded (maxLen : Nat) (buf : List String) (l : String) : List String :=
  if maxLen < (buf ++ [l]).length then (buf ++ [l]).drop ((buf ++ [l]).length - maxLen)
  else buf ++ [l]

/-- The while-loop of `ProcessManager._read_output` over the child's
emitted lines (already decoded with replacement and rstripped). The
callback is modelled as `String → Bool`, `false` meaning the call raised.
The loop body appends the line to the buffer and then invokes the
callback; the surrounding `except Exception` clause logs and ends the
coroutine, so a callback failure terminates the loop after the failing
line was appended. Returns the final buffer. -/
def readOutputLoop (maxLen : Nat) (cb : String → Bool) :
    List String → List String → List String
  | buf, [] => buf
  | buf, l :: rest =>
    let buf' := appendBounded maxLen buf l
    if cb l then readOutputLoop maxLen cb buf' rest else buf'

/-- `ProcessManager._read_output` at the manager level: drain `emitted`
into `name`'s buffer. A missing buffer would raise `KeyError` inside the
loop's `try`, swallowed by the same `except Exception`, leaving the state
unchanged. -/
def read_output (s : ManagerState) (name : String) (cb : String → Bool)
    (emitted : List String) : ManagerState :=
  match s.outputBuffers.lookup name with
  | none => s
  | some buf =>
    { s with outputBuffers :=
        assocSet s.outputBuffers name (readOutputLoop s.maxOutputLines cb buf emitted) }

/-- `ProcessManager.is_running`: false for unknown names, otherwise
whether `returncode` is still unset. -/
def is_running (s : ManagerState) (name : String) : Bool :=
  match s.processes.lookup name with
  | none => false
  | some p => p.returncode.isNone

/-- The Python slice `xs[-n:]` for a nonnegative `n`: for `n = 0` the
start index `-0` is `0`, so the slice is the WHOLE list; for `n ≥ 1` it is
the last `min n xs.length` elements. -/
def pyTailSlice (xs : List String) (n : Nat) : List String :=
  if n = 0 then xs else xs.drop (xs.length - n)

/-- `ProcessManager.get_output`: `list(buffer)[-lines:]`, or `[]` when the
name has no buffer. -/
def get_output (s : ManagerState) (name : String) (lines : Nat) : List String :=
  match s.outputBuffers.lookup name with
  | none => []
  | some buf => pyTailSlice buf lines

/-- Outcomes of the OS-dependent steps of `stop`: whether
`process.terminate()` raises `ProcessLookupError` (the child vanished),
whether `asyncio.wait_for(process.wait(), timeout)` returns inside the
window (versus `TimeoutError`), and whether `process.kill()` raises
`ProcessLookupError`. -/
structure StopEnv where
  terminateVanished : Bool
  gracefulWithin : Bool
  killVanished : Bool

/-- Signals the supervisor delivers while stopping a child. -/
inductive Sig where
  | term
  | kill
deriving DecidableEq

/-- `ProcessManager.stop`. Unknown name: no-op returning true. Already
exited: drop the registry entry only. Otherwise terminate (a vanished
child also just drops the registry entry), wait up to `timeout`,
escalate to kill on timeout, then cancel and await the drain task,
delete its dict entry and delete the registry entry. The third component
lists the signals actually delivered. -/
def stop (s : ManagerState) (name : String) (timeout : Nat) (env : StopEnv) :
    Except PyExc (Bool × ManagerState × List Sig) :=
  match s.processes.lookup name with
  | none => .ok (true, s, [])
  | some proc =>
    if proc.returncode.isSome then
      .ok (true, { s with processes := assocDel s.processes name }, [])
    else if env.terminateVanished then
      .ok (true, { s with processes := assocDel s.processes name }, [])
    else
      let sigs :=
        if env.gracefulWithin then [Sig.term]
        else if env.killVanished then [Sig.term]
        else [Sig.term, Sig.kill]
      .ok (true,
        { s with
          processes := assocDel s.processes name,
          outputTasks := s.outputTasks.filter (fun m => m != name) },
        sigs)

/-- The loop of `ProcessManager.stop_all` over the pre-captured key list. -/
def stopAllGo (t : Nat) (envf : String → StopEnv) :
    List String → ManagerState → Except PyExc ManagerState
  | [], s => .ok s
  | n :: rest, s =>
    match stop s n t (envf n) with
    | .error e => .error e
    | .ok (_, s', _) => stopAllGo t envf rest s'

/-- `ProcessManager.stop_all`: `names = list(self._processes.keys())`,
then a sequential `stop(name, timeout)` for each. -/
def stop_all (s : ManagerState) (t : Nat) (envf : String → StopEnv) :
    Except PyExc ManagerState :=
  stopAllGo t envf (s.processes.map Prod.fst) s

/-- One row of `ProcessManager.get_status`'s result. -/
structure StatusEntry where
  running : Bool
  pid : Option Nat
  returncode : Option Int
deriving DecidableEq

/-- `ProcessManager.get_status`: a snapshot row per registry entry
(`is_running(name)` re-reads the dict, which yields this entry's own
returncode test). -/
def get_status (s : ManagerState) : List (String × StatusEntry) :=
  s.processes.map (fun p =>
    (p.1,
      { running := p.2.returncode.isNone,
        pid := if p.2.returncode.isNone then some p.2.pid else none,
        returncode := p.2.returncode }))

/-! ### Association-list lemmas -/

/-- Overwriting an existing key in place makes the key look up to the new
value. -/
theorem lookup_map_overwrite (m : List (String × α)) (k : String) (v : α)
    (h : (m.lookup k).isSome) :
    (m.map (fun p => if p.1 = k then (k, v) else p)).lookup k = some v := by
  induction m with
  | nil => simp at h
  | cons p rest ih =>
    obtain ⟨pk, pv⟩ := p
    by_cases hp : pk = k
    · subst hp
      simp [List.lookup_cons]
    · have h' : (rest.lookup k).isSome := by
        simpa [List.lookup_cons, beq_false_of_ne (Ne.symm hp)] using h
      simpa [List.lookup_cons, hp, beq_false_of_ne (Ne.symm hp)] using ih h'

/-- A dict assignment makes the key look up to the assigned value. -/
theorem lookup_assocSet_self (m : List (String × α)) (k : String) (v : α) :
    (assocSet m k v).lookup k = some v := by
  unfold assocSet
  split
  next h => exact lookup_map_overwrite m k v h
  next h =>
    have hnone : m.lookup k = none := by
      cases hx : m.lookup k with
      | none => rfl
      | some w => rw [hx] at h; simp at h
    simp [List.lookup_append, hnone]

/-- After a dict deletion, the deleted key looks up to nothing. -/
theorem lookup_assocDel_self (m : List (String × α)) (k : String) :
    (assocDel m k).lookup k = none := by
  rw [List.lookup_eq_none_iff]
  intro p hp
  have := List.of_mem_filter hp
  simpa [bne_iff_ne, ne_comm] using this

/-- Deleting an absent key leaves the dict unchanged. -/
theorem assocDel_of_lookup_none (m : List (String × α)) (k : String)
    (h : m.lookup k = none) : assocDel m k = m := by
  rw [List.lookup_eq_none_iff] at h
  unfold assocDel
  rw [List.filter_eq_self]
  intro p hp
  simpa [bne_iff_ne, ne_comm] using h p hp

/-! ### Drain-loop and slice lemmas -/

/-- A bounded append never grows the buffer past `maxLen` once it is
within bounds. -/
theorem appendBounded_length_le (maxLen : Nat) (buf : List String) (l : String)
    (h : buf.length ≤ maxLen) : (appendBounded maxLen buf l).length ≤ maxLen := by
  unfold appendBounded
  split
  next hlt => simp only [List.length_drop]; omega
  next hlt =>
    simp only [not_lt, List.length_append, List.length_cons, List.length_nil] at hlt ⊢
    omega

/-- A bounded append keeps only a suffix pattern of the appended list. -/
theorem appendBounded_sublist (maxLen : Nat) (buf : List String) (l : String) :
    (appendBounded maxLen buf l).Sublist (buf ++ [l]) := by
  unfold appendBounded
  split
  · exact List.drop_sublist _ _
  · exact List.Sublist.refl _

/-- The drain loop never grows the buffer past `maxLen` once it is within
bounds, wherever the callback fails. -/
theorem readOutputLoop_length_le (maxLen : Nat) (cb : String → Bool) :
    ∀ (emitted buf : List String), buf.length ≤ maxLen →
      (readOutputLoop maxLen cb buf emitted).length ≤ maxLen := by
  intro emitted
  induction emitted with
  | nil => intro buf h; simpa [readOutputLoop] using h
  | cons l rest ih =>
    intro buf h
    by_cases hc : cb l
    · simpa [readOutputLoop, hc] using
        ih (appendBounded maxLen buf l) (appendBounded_length_le maxLen buf l h)
    · simpa [readOutputLoop, hc] using appendBounded_length_le maxLen buf l h

/-- The final drain buffer is a sublist of the initial buffer followed by
the emitted lines: lines are kept in emission order, never reordered or
duplicated. -/
theorem readOutputLoop_sublist (maxLen : Nat) (cb : String → Bool) :
    ∀ (emitted buf : List String),
      (readOutputLoop maxLen cb buf emitted).Sublist (buf ++ emitted) := by
  intro emitted
  induction emitted with
  | nil => intro buf; simp [readOutputLoop]
  | cons l rest ih =>
    intro buf
    by_cases hc : cb l
    · have h1 := ih (appendBounded maxLen buf l)
      have h2 : (appendBounded maxLen buf l ++ rest).Sublist ((buf ++ [l]) ++ rest) :=
        (appendBounded_sublist maxLen buf l).append_right rest
      have h3 := h1.trans h2
      simpa [readOutputLoop, hc, List.append_assoc] using h3
    · have h2 : (appendBounded maxLen buf l).Sublist (buf ++ [l]) :=
        appendBounded_sublist maxLen buf l
      have h3 : (buf ++ [l]).Sublist (buf ++ l :: rest) := by
        apply List.Sublist.append_left
        exact (List.nil_sublist rest).cons₂ l
      simpa [readOutputLoop, hc] using h2.trans h3

/-- For a positive count, the Python tail slice returns at most that many
elements. -/
theorem pyTailSlice_length_le (xs : List String) (n : Nat) (h : 1 ≤ n) :
    (pyTailSlice xs n).length ≤ n := by
  unfold pyTailSlice
  split
  next h0 => omega
  next h0 => simp only [List.length_drop]; omega

/-- The Python tail slice never returns more elements than the list has. -/
theorem pyTailSlice_length_le_length (xs : List String) (n : Nat) :
    (pyTailSlice xs n).length ≤ xs.length := by
  unfold pyTailSlice
  split
  · exact le_rfl
  · simp only [List.length_drop]; omega

/-- The Python tail slice is a sublist of its argument. -/
theorem pyTailSlice_sublist (xs : List String) (n : Nat) :
    (pyTailSlice xs n).Sublist xs := by
  unfold pyTailSlice
  split
  · exact List.Sublist.refl _
  · exact List.drop_sublist _ _

/-! ### Structural lemmas about the start and stop operations -/

/-- Every start operation fails fast, leaving the state untouched, when
the name is already registered. -/
theorem startOp_false_of_mem (k : StartKind) (s : ManagerState) (n : String)
    (e : StartEnv) (h : (s.processes.lookup n).isSome) :
    startOp k s n e = .ok (false, s) := by
  cases k <;>
    simp [startOp, start_node_process, start_python_process, start_npx_process, h]

/-- A successful start happened on a free name with a successful spawn,
and registered the process, a fresh empty buffer and the drain task. -/
theorem startOp_ok_true (k : StartKind) (s : ManagerState) (n : String)
    (e : StartEnv) (s' : ManagerState) (h : startOp k s n e = .ok (true, s')) :
    s.processes.lookup n = none ∧
    ∃ pid, e.spawn = .ok pid ∧
      s'.processes = assocSet s.processes n ⟨pid, none⟩ ∧
      s'.outputBuffers = assocSet s.outputBuffers n [] ∧
      s'.outputTasks = taskSet s.outputTasks n ∧
      s'.maxOutputLines = s.maxOutputLines := by
  have hnone : s.processes.lookup n = none := by
    cases hx : s.processes.lookup n with
    | none => rfl
    | some p =>
      rw [startOp_false_of_mem k s n e (by simp [hx])] at h
      simp at h
  refine ⟨hnone, ?_⟩
  cases k <;>
    simp only [startOp, start_node_process, start_python_process, start_npx_process,
      hnone, Option.isSome_none, Bool.false_eq_true, if_false] at h
  case node =>
    cases hne : get_node_executable e.node with
    | error ex =>
      rw [hne] at h
      cases ex <;> simp at h
    | ok nd =>
      rw [hne] at h
      cases hsp : e.spawn with
      | error ex => rw [hsp] at h; simp at h
      | ok pid =>
        rw [hsp] at h
        simp only [Except.ok.injEq, Prod.mk.injEq, true_and] at h
        subst h
        exact ⟨pid, rfl, rfl, rfl, rfl, rfl⟩
  case python =>
    cases hsp : e.spawn with
    | error ex => rw [hsp] at h; simp at h
    | ok pid =>
      rw [hsp] at h
      simp only [Except.ok.injEq, Prod.mk.injEq, true_and] at h
      subst h
      exact ⟨pid, rfl, rfl, rfl, rfl, rfl⟩
  case npx =>
    cases hsp : e.spawn with
    | error ex => rw [hsp] at h; simp at h
    | ok pid =>
      rw [hsp] at h
      simp only [Except.ok.injEq, Prod.mk.injEq, true_and] at h
      subst h
      exact ⟨pid, rfl, rfl, rfl, rfl, rfl⟩

/-- A free name, a resolving node executable and a successful spawn make
every start operation succeed. -/
theorem startOp_ok_of_free (k : StartKind) (s : ManagerState) (n : String)
    (e : StartEnv) (nd : String) (pid : Nat)
    (hfree : s.processes.lookup n = none)
    (hnd : get_node_executable e.node = .ok nd) (hsp : e.spawn = .ok pid) :
    startOp k s n e = .ok (true,
      { s with
        processes := assocSet s.processes n ⟨pid, none⟩,
        outputBuffers := assocSet s.outputBuffers n [],
        outputTasks := taskSet s.outputTasks n }) := by
  cases k <;>
    simp [startOp, start_node_process, start_python_process, start_npx_process,
      hfree, hnd, hsp]

/-- `stop` always succeeds with result true; the registry loses exactly
the stopped name, and the output buffers (and the line cap) are never
touched. -/
theorem stop_ok (s : ManagerState) (n : String) (t : Nat) (env : StopEnv) :
    ∃ s' sigs, stop s n t env = .ok (true, s', sigs) ∧
      s'.processes = assocDel s.processes n ∧
      s'.outputBuffers = s.outputBuffers ∧
      s'.maxOutputLines = s.maxOutputLines := by
  unfold stop
  cases h : s.processes.lookup n with
  | none =>
    exact ⟨s, [], rfl, (assocDel_of_lookup_none s.processes n h).symm, rfl, rfl⟩
  | some proc =>
    by_cases hrc : proc.returncode.isSome
    · simp only [hrc, if_true]
      exact ⟨_, _, rfl, rfl, rfl, rfl⟩
    · by_cases hv : env.terminateVanished
      · simp only [hrc, hv, if_true, if_false, Bool.false_eq_true]
        exact ⟨_, _, rfl, rfl, rfl, rfl⟩
      · simp only [hrc, hv, if_false, Bool.false_eq_true]
        exact ⟨_, _, rfl, rfl, rfl, rfl⟩

/-- Transfer of `stop_ok` to a hypothesis about a given stop result. -/
theorem stop_state (s : ManagerState) (n : String) (t : Nat) (env : StopEnv)
    (b : Bool) (s' : ManagerState) (sigs : List Sig)
    (h : stop s n t env = .ok (b, s', sigs)) :
    b = true ∧
    s'.processes = assocDel s.processes n ∧
    s'.outputBuffers = s.outputBuffers ∧
    s'.maxOutputLines = s.maxOutputLines := by
  obtain ⟨s₂, sg₂, he, hp, hb, hm⟩ := stop_ok s n t env
  have heq := he.symm.trans h
  simp only [Except.ok.injEq, Prod.mk.injEq] at heq
  obtain ⟨hb', hs', -⟩ := heq
  exact ⟨hb'.symm, hs' ▸ hp, hs' ▸ hb, hs' ▸ hm⟩

/-- The `stop_all` loop succeeds, filtering out every listed name from
the registry and leaving the buffers alone. -/
theorem stopAllGo_ok (t : Nat) (envf : String → StopEnv) :
    ∀ (ns : List String) (s : ManagerState),
      ∃ s', stopAllGo t envf ns s = .ok s' ∧
        s'.processes = s.processes.filter (fun p => !(ns.contains p.1)) ∧
        s'.outputBuffers = s.outputBuffers := by
  intro ns
  induction ns with
  | nil => intro s; exact ⟨s, rfl, by simp, rfl⟩
  | cons n rest ih =>
    intro s
    obtain ⟨s₁, sg₁, he, hp, hb, hm⟩ := stop_ok s n t (envf n)
    obtain ⟨s', he', hp', hb'⟩ := ih s₁
    refine ⟨s', ?_, ?_, hb'.trans hb⟩
    · simp only [stopAllGo, he, he']
    · rw [hp', hp]
      unfold assocDel
      rw [List.filter_filter]
      apply List.filter_congr
      intro p _
      cases h1 : p.1 == n <;> cases h2 : rest.contains p.1 <;>
        simp_all [List.contains_cons, bne]

/-! ### Claim theorems -/

/-- C1: if a start operation (of any of the three kinds) for name `n`
succeeded and no intervening stop occurred, a second start call of any
kind with the same `n` returns false and leaves the state untouched
(spawns nothing), and the registry still maps `n` to the process created
by the first call. -/
theorem C1_second_start_fails (k₁ k₂ : StartKind) (s s₁ : ManagerState)
    (n : String) (e₁ e₂ : StartEnv) (pid : Nat)
    (h : startOp k₁ s n e₁ = .ok (true, s₁)) (hsp : e₁.spawn = .ok pid) :
    startOp k₂ s₁ n e₂ = .ok (false, s₁) ∧
    s₁.processes.lookup n = some ⟨pid, none⟩ := by
  obtain ⟨hnone, pid', hsp', hp, hb, ht, hm⟩ := startOp_ok_true k₁ s n e₁ s₁ h
  have hpid : pid' = pid := by
    rw [hsp] at hsp'
    exact Except.ok.inj hsp'.symm
  subst hpid
  have hl : s₁.processes.lookup n = some ⟨pid', none⟩ := by
    rw [hp]
    exact lookup_assocSet_self s.processes n ⟨pid', none⟩
  exact ⟨startOp_false_of_mem k₂ s₁ n e₂ (by simp [hl]), hl⟩

/-- Witness for C1: a python start of "p" on the fresh manager succeeds,
and a second (node) start of "p" fails leaving the registry unchanged. -/
theorem C1_witness :
    startOp .node (⟨[("p", ⟨7, none⟩)], [("p", [])], ["p"], 1000⟩ : ManagerState)
        "p" ⟨⟨false, .error .oSError⟩, .ok 8⟩ =
      .ok (false, ⟨[("p", ⟨7, none⟩)], [("p", [])], ["p"], 1000⟩) ∧
    (⟨[("p", ⟨7, none⟩)], [("p", [])], ["p"], 1000⟩ : ManagerState).processes.lookup "p" =
      some ⟨7, none⟩ :=
  C1_second_start_fails .python .node initState _ "p" ⟨⟨true, .ok 0⟩, .ok 7⟩
    ⟨⟨false, .error .oSError⟩, .ok 8⟩ 7 rfl rfl

/-- The shape of `get_output` right after draining lines into a buffer
found for `name`. -/
theorem get_output_read (s : ManagerState) (n : String) (cb : String → Bool)
    (emitted buf : List String) (hbuf : s.outputBuffers.lookup n = some buf)
    (k : Nat) :
    get_output (read_output s n cb emitted) n k =
      pyTailSlice (readOutputLoop s.maxOutputLines cb buf emitted) k := by
  simp only [read_output, hbuf, get_output, lookup_assocSet_self]

/-- C2 (amended): for every requested count k ≥ 1, `get_output(n, k)`
returns at most k lines and at most 1000 lines however many lines the
process emitted, in emission order (a sublist of the emitted lines), and
it returns the empty sequence when the name is unknown. For k = 0 the
bound fails (see the counterexample): the slice `[-0:]` is the whole
buffer. -/
theorem C2_get_output_bounds (s : ManagerState) (n : String) (cb : String → Bool)
    (emitted : List String) (k : Nat) (hk : 1 ≤ k)
    (hbuf : s.outputBuffers.lookup n = some [])
    (hmax : s.maxOutputLines = 1000) :
    ((get_output (read_output s n cb emitted) n k).length ≤ k ∧
     (get_output (read_output s n cb emitted) n k).length ≤ 1000 ∧
     (get_output (read_output s n cb emitted) n k).Sublist emitted) ∧
    ∀ (s₂ : ManagerState) (m : String) (j : Nat),
      s₂.outputBuffers.lookup m = none → get_output s₂ m j = [] := by
  constructor
  · rw [get_output_read s n cb emitted [] hbuf k]
    refine ⟨pyTailSlice_length_le _ k hk, ?_, ?_⟩
    · calc (pyTailSlice (readOutputLoop s.maxOutputLines cb [] emitted) k).length
          ≤ (readOutputLoop s.maxOutputLines cb [] emitted).length :=
            pyTailSlice_length_le_length _ k
        _ ≤ s.maxOutputLines :=
            readOutputLoop_length_le s.maxOutputLines cb emitted [] (by simp)
        _ ≤ 1000 := by rw [hmax]
    · have h1 := pyTailSlice_sublist (readOutputLoop s.maxOutputLines cb [] emitted) k
      have h2 := readOutputLoop_sublist s.maxOutputLines cb emitted []
      simpa using h1.trans h2
  · intro s₂ m j hm
    simp [get_output, hm]

/-- Witness for C2 (amended) at a concrete drain of two lines with k = 1. -/
theorem C2_witness :
    ((get_output (read_output ⟨[("p", ⟨7, none⟩)], [("p", [])], ["p"], 1000⟩
        "p" (fun _ => true) ["x", "y"]) "p" 1).length ≤ 1 ∧
     (get_output (read_output ⟨[("p", ⟨7, none⟩)], [("p", [])], ["p"], 1000⟩
        "p" (fun _ => true) ["x", "y"]) "p" 1).length ≤ 1000 ∧
     (get_output (read_output ⟨[("p", ⟨7, none⟩)], [("p", [])], ["p"], 1000⟩
        "p" (fun _ => true) ["x", "y"]) "p" 1).Sublist ["x", "y"]) ∧
    ∀ (s₂ : ManagerState) (m : String) (j : Nat),
      s₂.outputBuffers.lookup m = none → get_output s₂ m j = [] :=
  C2_get_output_bounds ⟨[("p", ⟨7, none⟩)], [("p", [])], ["p"], 1000⟩ "p"
    (fun _ => true) ["x", "y"] 1 (by decide) rfl rfl

/-- Counterexample for C2 as stated: with one buffered line, a request
for k = 0 lines returns that line — `list(buffer)[-0:]` is the whole
buffer, not the empty sequence. -/
theorem C2_counterexample :
    get_output (read_output ⟨[("p", ⟨7, none⟩)], [("p", [])], ["p"], 1000⟩ "p"
        (fun _ => true) ["x"]) "p" 0 = ["x"] ∧
    ¬ (get_output (read_output ⟨[("p", ⟨7, none⟩)], [("p", [])], ["p"], 1000⟩ "p"
        (fun _ => true) ["x"]) "p" 0).length ≤ 0 :=
  ⟨rfl, by decide⟩

/-- Whether `stop` for this name and environment takes the
graceful/forced-kill path (the only path whose cleanup block cancels the
drain task): a registered, not-yet-exited process whose `terminate()`
does not hit `ProcessLookupError`. -/
def takesKillPath (s : ManagerState) (n : String) (env : StopEnv) : Bool :=
  match s.processes.lookup n with
  | none => false
  | some proc => proc.returncode.isNone && !env.terminateVanished

/-- C3 (amended): `stop` always removes the registry entry for the name,
but only the graceful/forced-kill path cancels and awaits the drain task
and removes its entry; on the already-exited and process-vanished
branches the registry entry is dropped with the drain-task entry left in
place. -/
theorem C3_drain_task_cleanup (s : ManagerState) (n : String) (t : Nat)
    (env : StopEnv) :
    ∃ s' sigs, stop s n t env = .ok (true, s', sigs) ∧
      s'.processes.lookup n = none ∧
      s'.outputTasks =
        (if takesKillPath s n env then s.outputTasks.filter (fun m => m != n)
         else s.outputTasks) ∧
      (takesKillPath s n env = true → n ∉ s'.outputTasks) ∧
      (takesKillPath s n env = false → s'.outputTasks = s.outputTasks) := by
  have hout : ∀ zs : List String, n ∉ zs.filter (fun m => m != n) := by
    intro zs hmem
    have := List.of_mem_filter hmem
    simp at this
  cases hl : s.processes.lookup n with
  | none =>
    refine ⟨s, [], by simp [stop, hl], hl, ?_, ?_, fun _ => rfl⟩
    · simp [takesKillPath, hl]
    · intro hk
      simp [takesKillPath, hl] at hk
  | some proc =>
    by_cases hrc : proc.returncode.isSome
    · obtain ⟨c, hc⟩ := Option.isSome_iff_exists.mp hrc
      have hkp : takesKillPath s n env = false := by
        simp [takesKillPath, hl, hc]
      refine ⟨{ s with processes := assocDel s.processes n }, [],
        by simp [stop, hl, hrc], lookup_assocDel_self s.processes n, ?_,
        by simp [hkp], fun _ => rfl⟩
      simp [hkp]
    · by_cases hv : env.terminateVanished
      · have hkp : takesKillPath s n env = false := by
          simp [takesKillPath, hl, hv]
        refine ⟨{ s with processes := assocDel s.processes n }, [],
          by simp [stop, hl, hrc, hv], lookup_assocDel_self s.processes n, ?_,
          by simp [hkp], fun _ => rfl⟩
        simp [hkp]
      · have hrcn : proc.returncode = none := by
          cases hx : proc.returncode with
          | none => rfl
          | some c => rw [hx] at hrc; simp at hrc
        have hkp : takesKillPath s n env = true := by
          simp [takesKillPath, hl, hv, hrcn]
        refine ⟨{ s with
            processes := assocDel s.processes n,
            outputTasks := s.outputTasks.filter (fun m => m != n) },
          if env.gracefulWithin then [Sig.term]
          else if env.killVanished then [Sig.term] else [Sig.term, Sig.kill],
          by simp [stop, hl, hrc, hv], lookup_assocDel_self s.processes n, ?_,
          fun _ => hout s.outputTasks, ?_⟩
        · simp [hkp]
        · intro hfalse
          rw [hkp] at hfalse
          simp at hfalse

/-- Counterexample for C3 as stated: stopping an already-exited process
removes its registry entry without cancelling or removing its drain
task, which remains registered on return. -/
theorem C3_counterexample :
    stop ⟨[("p", ⟨7, some 0⟩)], [("p", [])], ["p"], 1000⟩ "p" 5 ⟨false, true, false⟩ =
      .ok (true, ⟨[], [("p", [])], ["p"], 1000⟩, []) ∧
    "p" ∈ (⟨[], [("p", [])], ["p"], 1000⟩ : ManagerState).outputTasks :=
  ⟨rfl, by decide⟩

/-- C4 (amended): after `stop(n, t)` returns, the registry entry for `n`
is gone, but the per-name output buffer is NOT removed: `get_output` is
unchanged by the stop, returning the previously buffered lines rather
than the empty sequence. -/
theorem C4_buffers_survive_stop (s : ManagerState) (n : String) (t : Nat)
    (env : StopEnv) (b : Bool) (s' : ManagerState) (sigs : List Sig)
    (h : stop s n t env = .ok (b, s', sigs)) :
    s'.processes.lookup n = none ∧
    s'.outputBuffers = s.outputBuffers ∧
    ∀ m j, get_output s' m j = get_output s m j := by
  obtain ⟨-, hp, hb, -⟩ := stop_state s n t env b s' sigs h
  refine ⟨?_, hb, ?_⟩
  · rw [hp]
    exact lookup_assocDel_self s.processes n
  · intro m j
    unfold get_output
    rw [hb]

/-- Witness for C4 (amended) on a concrete graceful stop. -/
theorem C4_witness :
    (⟨[], [("p", ["hello"])], [], 1000⟩ : ManagerState).processes.lookup "p" = none ∧
    (⟨[], [("p", ["hello"])], [], 1000⟩ : ManagerState).outputBuffers =
      (⟨[("p", ⟨7, none⟩)], [("p", ["hello"])], ["p"], 1000⟩ : ManagerState).outputBuffers ∧
    ∀ m j, get_output (⟨[], [("p", ["hello"])], [], 1000⟩ : ManagerState) m j =
      get_output (⟨[("p", ⟨7, none⟩)], [("p", ["hello"])], ["p"], 1000⟩ : ManagerState) m j :=
  C4_buffers_survive_stop ⟨[("p", ⟨7, none⟩)], [("p", ["hello"])], ["p"], 1000⟩
    "p" 5 ⟨false, true, false⟩ true _ [Sig.term] rfl

/-- Counterexample for C4 as stated: after a completed stop of "p",
`get_output("p", 50)` still returns the buffered line, not the empty
sequence. -/
theorem C4_counterexample :
    stop ⟨[("p", ⟨7, none⟩)], [("p", ["hello"])], ["p"], 1000⟩ "p" 5 ⟨false, true, false⟩ =
      .ok (true, ⟨[], [("p", ["hello"])], [], 1000⟩, [Sig.term]) ∧
    get_output (⟨[], [("p", ["hello"])], [], 1000⟩ : ManagerState) "p" 50 = ["hello"] ∧
    ["hello"] ≠ ([] : List String) :=
  ⟨rfl, rfl, by decide⟩

/-- C5 (amended): a callback failure on a line does not escape the drain
task (the loop-level except swallows and logs it), and the failing line
has already been appended; but the loop terminates there: the remaining
lines are not read, appended, or passed to the callback (the result does
not depend on them). -/
theorem C5_callback_failure_ends_drain (maxLen : Nat) (buf : List String)
    (cb : String → Bool) (l : String) (rest : List String) (h : cb l = false) :
    readOutputLoop maxLen cb buf (l :: rest) = appendBounded maxLen buf l := by
  simp [readOutputLoop, h]

/-- Witness for C5 (amended): a callback that raises on "a" stops the
drain right after appending "a". -/
theorem C5_witness :
    readOutputLoop 1000 (fun m => m != "a") [] ["a", "b"] = appendBounded 1000 [] "a" :=
  C5_callback_failure_ends_drain 1000 [] (fun m => m != "a") "a" ["b"] rfl

/-- Counterexample for C5 as stated: with lines "a", "b" emitted and a
callback that raises on "a", the line "b" is never read or buffered —
the drain does not continue past the failing line. -/
theorem C5_counterexample :
    read_output ⟨[("p", ⟨7, none⟩)], [("p", [])], ["p"], 1000⟩ "p"
        (fun m => m != "a") ["a", "b"] =
      ⟨[("p", ⟨7, none⟩)], [("p", ["a"])], ["p"], 1000⟩ ∧
    "b" ∉ get_output (⟨[("p", ⟨7, none⟩)], [("p", ["a"])], ["p"], 1000⟩ : ManagerState) "p" 50 :=
  ⟨rfl, by decide⟩

/-- C6: after `stop(n, t)` returns true, `is_running(n)` is false and a
subsequent start operation with the same name (of any kind, given the
executable resolves and the spawn succeeds) returns true, registering the
fresh process. -/
theorem C6_stop_frees_name (s : ManagerState) (n : String) (t : Nat)
    (env : StopEnv) (s' : ManagerState) (sigs : List Sig)
    (h : stop s n t env = .ok (true, s', sigs))
    (k : StartKind) (e : StartEnv) (nd : String) (pid : Nat)
    (hnd : get_node_executable e.node = .ok nd) (hsp : e.spawn = .ok pid) :
    is_running s' n = false ∧
    startOp k s' n e = .ok (true,
      { s' with
        processes := assocSet s'.processes n ⟨pid, none⟩,
        outputBuffers := assocSet s'.outputBuffers n [],
        outputTasks := taskSet s'.outputTasks n }) := by
  obtain ⟨-, hp, -, -⟩ := stop_state s n t env true s' sigs h
  have hfree : s'.processes.lookup n = none := by
    rw [hp]
    exact lookup_assocDel_self s.processes n
  exact ⟨by simp [is_running, hfree],
    startOp_ok_of_free k s' n e nd pid hfree hnd hsp⟩

/-- Witness for C6: graceful stop of a running "p", then a node start of
"p" succeeds. -/
theorem C6_witness :
    is_running (⟨[], [("p", [])], [], 1000⟩ : ManagerState) "p" = false ∧
    startOp .node (⟨[], [("p", [])], [], 1000⟩ : ManagerState) "p"
        ⟨⟨true, .ok 0⟩, .ok 9⟩ =
      .ok (true, ⟨[("p", ⟨9, none⟩)], [("p", [])], ["p"], 1000⟩) :=
  C6_stop_frees_name ⟨[("p", ⟨7, none⟩)], [("p", [])], ["p"], 1000⟩ "p" 5
    ⟨false, true, false⟩ ⟨[], [("p", [])], [], 1000⟩ [Sig.term] rfl
    .node ⟨⟨true, .ok 0⟩, .ok 9⟩ "node" 9 rfl rfl

/-- C7: `stop_all(t)` stops every registered name sequentially with the
same per-process timeout and always succeeds; on return the registry is
empty, `get_status()` is the empty mapping, and every name (in
particular every previously registered one) is reusable: a start of any
kind succeeds given the executable resolves and the spawn succeeds. -/
theorem C7_stop_all_empties (s : ManagerState) (t : Nat)
    (envf : String → StopEnv) :
    ∃ s', stop_all s t envf = .ok s' ∧
      s'.processes = [] ∧
      get_status s' = [] ∧
      ∀ (k : StartKind) (n : String) (e : StartEnv) (nd : String) (pid : Nat),
        get_node_executable e.node = .ok nd → e.spawn = .ok pid →
        startOp k s' n e = .ok (true,
          { s' with
            processes := assocSet s'.processes n ⟨pid, none⟩,
            outputBuffers := assocSet s'.outputBuffers n [],
            outputTasks := taskSet s'.outputTasks n }) := by
  obtain ⟨s', he, hp, hb⟩ := stopAllGo_ok t envf (s.processes.map Prod.fst) s
  have hempty : s'.processes = [] := by
    rw [hp, List.filter_eq_nil_iff]
    intro p hpmem
    have hmem : p.1 ∈ s.processes.map Prod.fst :=
      List.mem_map_of_mem Prod.fst hpmem
    simp [hmem]
  refine ⟨s', he, hempty, by simp [get_status, hempty], ?_⟩
  intro k n e nd pid hnd hsp
  exact startOp_ok_of_free k s' n e nd pid (by simp [hempty]) hnd hsp

/-- C8: stopping a never-started (or already fully stopped) name returns
true, sends no signal, and leaves the whole state untouched. -/
theorem C8_stop_unknown_noop (s : ManagerState) (n : String) (t : Nat)
    (env : StopEnv) (h : s.processes.lookup n = none) :
    stop s n t env = .ok (true, s, []) := by
  simp [stop, h]

/-- Witness for C8 on a fresh manager and a name never started. -/
theorem C8_witness :
    stop initState "ghost" 5 ⟨false, true, false⟩ = .ok (true, initState, []) :=
  C8_stop_unknown_noop initState "ghost" 5 ⟨false, true, false⟩ rfl

/-- C9: evaluation of the code at the failing input. With the name free,
nodejs-bin not importable, and the `subprocess.run(["node", "--version"])`
probe raising an `OSError` that is not a `FileNotFoundError` (e.g. a
`PermissionError`: a node on PATH that is not executable),
`start_node_process` propagates the exception to its caller instead of
logging and returning false — the probe's `except` catches only
`TimeoutExpired` and `FileNotFoundError`, and the start catches only
`RuntimeError`. The sibling probe outcomes that ARE caught
(`FileNotFoundError`, `TimeoutExpired`, and a `RuntimeError` from a
nonzero probe returncode) all return false as the claim says, as do spawn
failures of the other two start operations. -/
theorem C9_start_node_raises :
    start_node_process initState "sync" ⟨⟨false, .error .oSError⟩, .ok 7⟩ =
      .error .oSError ∧
    start_node_process initState "sync" ⟨⟨false, .error .fileNotFoundError⟩, .ok 7⟩ =
      .ok (false, initState) ∧
    start_node_process initState "sync" ⟨⟨false, .error .timeoutError⟩, .ok 7⟩ =
      .ok (false, initState) ∧
    start_node_process initState "sync" ⟨⟨false, .ok 1⟩, .ok 7⟩ =
      .ok (false, initState) ∧
    start_python_process initState "sync" ⟨⟨false, .ok 0⟩, .error .oSError⟩ =
      .ok (false, initState) ∧
    start_npx_process initState "sync" ⟨⟨false, .ok 0⟩, .error .oSError⟩ =
      .ok (false, initState) :=
  ⟨rfl, rfl, rfl, rfl, rfl, rfl⟩

/-- C10: `stop` returns true on every execution path: for every state,
name, timeout and environment (already exited, graceful exit, forced
kill after the window, or a vanished process), it never returns false. -/
theorem C10_stop_always_true (s : ManagerState) (n : String) (t : Nat)
    (env : StopEnv) :
    ∃ s' sigs, stop s n t env = .ok (true, s', sigs) := by
  obtain ⟨s', sigs, he, -⟩ := stop_ok s n t env
  exact ⟨s', sigs, he⟩

end Mrmd
